import Mathlib

/-!
Shallow embedding of the findash-api transaction service
(`src/server.ts`, `src/middlewares/auth.ts`) and proofs of the
specification claims about it.

Conventions of the embedding:
* JS strings are Lean `String`s; character-level operations work on
  `String.data` (`List Char`).
* JS `Date` values are modelled as an integer count of seconds since the
  Unix epoch in the proleptic Gregorian calendar (the server clock is
  taken to be UTC); a JS *Invalid Date* is `none : Option Int`.
* Monetary amounts are rationals (`ℚ`), following the data model of the
  specification ("signed decimal quantity, not floating point").
* The persistence collaborator (Prisma) is modelled as a list of
  `Transaction` records threaded through every handler; each handler
  returns a `Resp × List Transaction` pair (response, new store).
-/

/-! ### JS character and string primitives -/

/-- Membership of a character in the JS `\s` class (the whitespace
characters relevant to this code base: ASCII blanks and NBSP). -/
def jsWs (c : Char) : Bool :=
  c = ' ' || c = '\t' || c = '\n' || c = '\r' || c = '\x0b' || c = '\x0c' || c = ' '

/-- ASCII decimal digit test (JS `\d`). -/
def isDigitB (c : Char) : Bool :=
  '0' ≤ c && c ≤ '9'

/-- Characters matched by the JS regex class `[\d,.]` (amount capture). -/
def amtClass (c : Char) : Bool :=
  isDigitB c || c = ',' || c = '.'

/-- Characters matched by the JS regex `.` (anything but a line terminator). -/
def dotClass (c : Char) : Bool :=
  !(c = '\n' || c = '\r' || c = ' ' || c = ' ')

/-- JS `String.prototype.split` with a single-character separator:
splits into the (possibly empty) chunks between occurrences of the
separator.  `splitChar sep "" = [""]` and a trailing separator yields a
trailing empty chunk, exactly as in JS. -/
def splitChar (sep : Char) : List Char → List (List Char)
  | [] => [[]]
  | c :: r =>
    if c = sep then [] :: splitChar sep r
    else
      match splitChar sep r with
      | [] => [[c]]
      | h :: t => (c :: h) :: t

/-- String-level wrapper for `splitChar`. -/
def jsSplit (sep : Char) (s : String) : List String :=
  (splitChar sep s.data).map fun l => String.mk l

/-- Case folding used by the categorizer (`toLowerCase`); on the ASCII
keywords of the rule table this agrees with the JS runtime. -/
def jsToLower (s : String) : String :=
  String.mk (s.data.map Char.toLower)

/-- List-level prefix test. -/
def isPrefixList : List Char → List Char → Bool
  | [], _ => true
  | _ :: _, [] => false
  | a :: as, b :: bs => a = b && isPrefixList as bs

/-- JS `String.prototype.includes`: does `needle` occur as a contiguous
substring of the haystack? -/
def containsSub (needle : List Char) : List Char → Bool
  | [] => needle.isEmpty
  | c :: t => isPrefixList needle (c :: t) || containsSub needle t

/-- String-level wrapper: `jsIncludes hay needle` is JS `hay.includes(needle)`. -/
def jsIncludes (hay needle : String) : Bool :=
  containsSub needle.data hay.data

/-- JS `String.prototype.replace` with a plain (non-regex) pattern:
only the first occurrence of `target` is replaced by `repl`. -/
def replaceFirst (target : Char) (repl : List Char) : List Char → List Char
  | [] => []
  | c :: r => if c = target then repl ++ r else c :: replaceFirst target repl r

/-- Test used by the import route's line filter: `line.trim() !== ''`,
i.e. the line contains at least one non-whitespace character. -/
def nonBlank (s : String) : Bool :=
  s.data.any fun c => !jsWs c

/-- Numeric value of a list of ASCII digit characters (most significant
first). -/
def digitsVal (l : List Char) : Nat :=
  l.foldl (fun a c => a * 10 + (c.toNat - 48)) 0

/-- Parse of a non-empty all-digit string into a natural number
(the behaviour of JS `parseInt` on the digit strings this code feeds it,
and of the decimal fields inside the modelled token format). -/
def parseDigits? (l : List Char) : Option Nat :=
  if l ≠ [] ∧ l.all isDigitB then some (digitsVal l) else none

/-- Decimal digit character for a value below ten. -/
def digitChar (n : Nat) : Char :=
  Char.ofNat (48 + n)

/-- Fuel-driven core of the decimal printer (structural recursion keeps
it reducible inside the kernel). -/
def toDigitsCore : Nat → Nat → List Char
  | 0, _ => []
  | fuel + 1, n =>
    if n < 10 then [digitChar n]
    else toDigitsCore fuel (n / 10) ++ [digitChar (n % 10)]

/-- Decimal representation of a natural number (most significant digit
first), as produced by JS number-to-string conversion. -/
def toDigits (n : Nat) : List Char :=
  toDigitsCore (n + 1) n

/-! ### Calendar arithmetic (proleptic Gregorian, as used by JS `Date`) -/

/-- Gregorian leap-year rule. -/
def isLeapB (y : Int) : Bool :=
  (y % 4 = 0 && !(y % 100 = 0)) || y % 400 = 0

/-- Length of calendar month `m` (1–12) of year `y`, in days. -/
def daysInMonth (y : Int) (m : Nat) : Int :=
  match m with
  | 1 => 31 | 2 => if isLeapB y then 29 else 28 | 3 => 31
  | 4 => 30 | 5 => 31 | 6 => 30 | 7 => 31 | 8 => 31
  | 9 => 30 | 10 => 31 | 11 => 30 | 12 => 31
  | _ => 0

/-- Total number of days in months `1..m` of year `y`. -/
def cumDays (y : Int) : Nat → Int
  | 0 => 0
  | m + 1 => cumDays y m + daysInMonth y (m + 1)

/-- Days from the calendar origin to the start of year `y` (floor
divisions implement the Gregorian leap-year count). -/
def daysToYear (y : Int) : Int :=
  365 * y + Int.fdiv (y + 3) 4 - Int.fdiv (y + 99) 100 + Int.fdiv (y + 399) 400

/-- Days since the Unix epoch of the civil date `y-m-d` (month `1..12`;
`d` may lie outside `1..daysInMonth` and then denotes the corresponding
offset from the first of the month, as under JS `Date` normalization). -/
def daysFromCivil (y : Int) (m : Nat) (d : Int) : Int :=
  daysToYear y - daysToYear 1970 + cumDays y (m - 1) + (d - 1)

/-- Seconds since the Unix epoch of `y-m-d h:mi:s`. -/
def secsFromCivil (y : Int) (m : Nat) (d h mi s : Int) : Int :=
  daysFromCivil y m d * 86400 + h * 3600 + mi * 60 + s

/-- Timestamp built by the JS `Date(year, monthIndex, day, h, m, s)`
constructor: years `0..99` are offset by 1900, the zero-based month
index overflows into adjacent years, and out-of-range day/time fields
roll over linearly. -/
def jsMakeDate (y monthIndex d hh mm ss : Int) : Int :=
  let yFull : Int := if 0 ≤ y ∧ y ≤ 99 then y + 1900 else y
  let yAdj : Int := yFull + Int.fdiv monthIndex 12
  let m : Nat := (Int.fmod monthIndex 12).toNat + 1
  (daysFromCivil yAdj m 1 + (d - 1)) * 86400 + hh * 3600 + mm * 60 + ss

/-- Parse of a `YYYY-MM-DD` string by the JS `Date` constructor
(ISO date-only form, the only shape this code base constructs): a valid
calendar date yields UTC midnight of that day, anything else is an
Invalid Date (`none`). -/
def jsDateISO (s : String) : Option Int :=
  match s.data with
  | [y1, y2, y3, y4, h1, m1, m2, h2, d1, d2] =>
    if h1 = '-' ∧ h2 = '-' ∧ [y1, y2, y3, y4, m1, m2, d1, d2].all isDigitB then
      let y : Int := (digitsVal [y1, y2, y3, y4] : Int)
      let m : Nat := digitsVal [m1, m2]
      let d : Int := (digitsVal [d1, d2] : Int)
      if 1 ≤ m ∧ m ≤ 12 ∧ 1 ≤ d ∧ d ≤ daysInMonth y m then
        some (secsFromCivil y m d 0 0 0)
      else none
    else none
  | _ => none

/-- The `new Date(string)` call of the create/update routes, restricted
to the ISO date-only strings exercised by this development. -/
def jsNewDate (s : String) : Option Int :=
  jsDateISO s

/-! ### Amount parsing -/

/-- JS `parseFloat` on the alphabet `[\d,.]` produced by the amount
capture after the two `replace` calls: an optional integer part, an
optional single decimal point and fraction; parsing stops at the first
character that cannot extend the number, and yields NaN (`none`) when no
digit was consumed. -/
def jsParseFloat (l : List Char) : Option ℚ :=
  match l.drop (l.takeWhile isDigitB).length with
  | '.' :: r2 =>
    if l.takeWhile isDigitB = [] ∧ r2.takeWhile isDigitB = [] then none
    else some ((digitsVal (l.takeWhile isDigitB) : ℚ)
      + (digitsVal (r2.takeWhile isDigitB) : ℚ) / (10 : ℚ) ^ (r2.takeWhile isDigitB).length)
  | _ =>
    if l.takeWhile isDigitB = [] then none
    else some (digitsVal (l.takeWhile isDigitB) : ℚ)

/-- Amount conversion of the import route:
`parseFloat(amountStr.replace('.', '').replace(',', '.'))` — each
`replace` rewrites only the first occurrence of its pattern. -/
def jsAmount (s : String) : Option ℚ :=
  jsParseFloat (replaceFirst ',' ['.'] (replaceFirst '.' [] s.data))

/-! ### Categorizer -/

/-- Categorization chain of the import route, translated clause by
clause from the `if`/`else if` ladder of `server.ts`. -/
def categorize (description : String) : String :=
  let lower := jsToLower description
  if jsIncludes lower "ifood" || jsIncludes lower "restaurante" then "Alimentação"
  else if jsIncludes lower "uber" || jsIncludes lower "99" then "Transporte"
  else if jsIncludes lower "netflix" || jsIncludes lower "spotify" || jsIncludes lower "disney+" then "Assinaturas"
  else if jsIncludes lower "aluguel" || jsIncludes lower "condominio" then "Moradia"
  else if jsIncludes lower "mercado" || jsIncludes lower "supermercado" then "Supermercado"
  else "Outros"

/-- The rule table exactly as the specification lists it: keyword set →
category, in evaluation order. -/
def categoryRules : List (List String × String) :=
  [ (["ifood", "restaurante"], "Alimentação"),
    (["uber", "99"], "Transporte"),
    (["netflix", "spotify", "disney+"], "Assinaturas"),
    (["aluguel", "condominio"], "Moradia"),
    (["mercado", "supermercado"], "Supermercado") ]

/-- First-match evaluation over an ordered rule list, as the
specification describes the categorizer: the first rule one of whose
keywords occurs case-insensitively in the description wins, and the
default is "Outros". -/
def findCat (d : String) : List (List String × String) → String
  | [] => "Outros"
  | (kws, cat) :: rest =>
    if kws.any (fun k => jsIncludes (jsToLower d) k) then cat else findCat d rest

/-- Specification-side categorizer: first matching rule of the table. -/
def firstMatchingCategory (d : String) : String :=
  findCat d categoryRules

/-! ### The import line regex
`^(\d{2}\/\d{2}\/\d{4})\s*-\s*(.+?)\s*-\s*R\$\s*([\d,.]+)` -/

/-- Tail of the import regex after the lazy description group:
`\s*-\s*R\$\s*([\d,.]+)`.  Each greedy `\s*` here never needs
backtracking because no whitespace character can start the literal that
follows it.  Returns the amount capture. -/
def tailMatch (l : List Char) : Option (List Char) :=
  match l.dropWhile jsWs with
  | '-' :: l2 =>
    match l2.dropWhile jsWs with
    | 'R' :: '$' :: l4 =>
      let amt := (l4.dropWhile jsWs).takeWhile amtClass
      if amt = [] then none else some amt
    | _ => none
  | _ => none

/-- Lazy group `(.+?)` followed by the tail: extend the description one
character at a time (each character must match `.`) and stop at the
first position where the tail matches.  `acc` holds the description
read so far, in order. -/
def tryDesc (acc : List Char) : List Char → Option (List Char × List Char)
  | [] => none
  | c :: rest =>
    if dotClass c then
      match tailMatch rest with
      | some amt => some (acc ++ [c], amt)
      | none => tryDesc (acc ++ [c]) rest
    else none

/-- Greedy `\s*` in front of the lazy group: the engine prefers to
consume as much whitespace as possible before the description starts,
backing off one character at a time when no description split
succeeds.  `k` is the number of whitespace characters consumed. -/
def tryWsFrom (l : List Char) : Nat → Option (List Char × List Char)
  | 0 => tryDesc [] l
  | k + 1 =>
    match tryDesc [] (l.drop (k + 1)) with
    | some r => some r
    | none => tryWsFrom l k

/-- Anchored prefix `\d{2}\/\d{2}\/\d{4}` of the import regex; returns
the date capture and the remainder of the line. -/
def matchDatePrefix : List Char → Option (List Char × List Char)
  | a :: b :: s1 :: c :: d :: s2 :: e :: f :: g :: h :: rest =>
    if isDigitB a && isDigitB b && s1 = '/' && isDigitB c && isDigitB d && s2 = '/'
        && isDigitB e && isDigitB f && isDigitB g && isDigitB h then
      some ([a, b, s1, c, d, s2, e, f, g, h], rest)
    else none
  | _ => none

/-- Full anchored match of the import line regex against one line,
producing the three captures (date, description, amount). -/
def matchLine (l : List Char) : Option (List Char × List Char × List Char) :=
  match matchDatePrefix l with
  | none => none
  | some (dateStr, rest) =>
    match rest.dropWhile jsWs with
    | '-' :: afterDash =>
      match tryWsFrom afterDash ((afterDash.takeWhile jsWs).length) with
      | some (desc, amt) => some (dateStr, desc, amt)
      | none => none
    | _ => none

/-! ### Data model -/

/-- A persisted transaction row (the Prisma `transaction` table). -/
structure Transaction where
  id : String
  userId : String
  title : String
  amount : ℚ
  ttype : String
  category : String
  date : Int
  createdAt : Int
deriving DecidableEq, Repr

/-- Request body of `POST /transactions`; an absent JSON field is `none`. -/
structure CreateBody where
  title : Option String
  amount : Option ℚ
  ttype : Option String
  category : Option String
  date : Option String
deriving DecidableEq, Repr

/-- Request body of `PUT /transactions/:id`; an absent field is `none`. -/
structure UpdateBody where
  title : Option String
  amount : Option ℚ
  ttype : Option String
  category : Option String
  date : Option String
deriving DecidableEq, Repr

/-- One element of the `transactionsToCreate` batch of the import
route: `none` in `amount` is a JS `NaN`, `none` in `date` an Invalid
Date. -/
structure ImportEntry where
  title : String
  amount : Option ℚ
  ttype : String
  category : String
  date : Option Int
  userId : String
deriving DecidableEq, Repr

/-- The service's HTTP responses, by status and payload. -/
inductive Resp where
  | ok (t : Transaction)
  | okList (l : List Transaction)
  | okImport (count : Nat)
  | noContent
  | badRequest
  | unauthorized
  | notFound
  | internal
deriving DecidableEq, Repr

/-- Descending date order used by `orderBy date desc`. -/
def dateDesc (a b : Transaction) : Prop :=
  b.date ≤ a.date

instance : DecidableRel dateDesc :=
  fun a b => Int.decLe b.date a.date

instance : IsTotal Transaction dateDesc :=
  ⟨fun a b => le_total b.date a.date⟩

instance : IsTrans Transaction dateDesc :=
  ⟨fun _ _ _ h1 h2 => le_trans h2 h1⟩

/-! ### Route handlers -/

/-- `GET /transactions` (lines 65–104): scope to the owner, optionally
filter by the month window `[new Date(y, m-1, 1),
new Date(y, m, 0, 23, 59, 59)]`, order by date descending. -/
def listHandler (userId : String) (year month : Option Int)
    (store : List Transaction) : Resp × List Transaction :=
  let base := store.filter fun t => t.userId == userId
  let filtered :=
    match year, month with
    | some y, some m =>
      let startDate := jsMakeDate y (m - 1) 1 0 0 0
      let endDate := jsMakeDate y m 0 23 59 59
      base.filter fun t => decide (startDate ≤ t.date) && decide (t.date ≤ endDate)
    | _, _ => base
  (Resp.okList (List.insertionSort dateDesc filtered), store)

/-- `POST /transactions` (lines 107–123): the validation gate is the JS
truthiness test `!title || !amount || !type || !category || !date`;
past it the record is persisted with the owner attached (`freshId` and
`now` stand for the id and `createdAt` the store assigns); a date the
store cannot represent makes the insert throw (500). -/
def createHandler (userId : String) (body : CreateBody) (freshId : String)
    (now : Int) (store : List Transaction) : Resp × List Transaction :=
  match body.title, body.amount, body.ttype, body.category, body.date with
  | some title, some amount, some ttype, some category, some dateStr =>
    if title == "" || amount == 0 || ttype == "" || category == "" || dateStr == "" then
      (Resp.badRequest, store)
    else
      match jsNewDate dateStr with
      | some d =>
        let t : Transaction :=
          { id := freshId, userId := userId, title := title, amount := amount,
            ttype := ttype, category := category, date := d, createdAt := now }
        (Resp.ok t, store ++ [t])
      | none => (Resp.internal, store)
  | _, _, _, _, _ => (Resp.badRequest, store)

/-- Field application of the Prisma `update` data object: an absent
(`undefined`) field keeps the row's value; `newDate` is the
already-computed date field (`none` = keep). -/
def applyUpd (body : UpdateBody) (u : Transaction) (newDate : Option Int) : Transaction :=
  { u with
    title := body.title.getD u.title,
    amount := body.amount.getD u.amount,
    ttype := body.ttype.getD u.ttype,
    category := body.category.getD u.category,
    date := newDate.getD u.date }

/-- `PUT /transactions/:id` (lines 200–219): ownership-checked lookup by
`(id, userId)` with 404 on absence; then a partial update by id where
each absent field stays unchanged and the date is rebuilt by `new Date`
only when the supplied value is truthy; a supplied date the store
cannot represent makes the update throw (500, nothing written). -/
def updDateField (body : UpdateBody) : Option (Option Int) :=
  match body.date with
  | some s => if s == "" then none else some (jsNewDate s)
  | none => none

def updateHandler (userId id : String) (body : UpdateBody)
    (store : List Transaction) : Resp × List Transaction :=
  match store.find? (fun t => t.id == id && t.userId == userId) with
  | none => (Resp.notFound, store)
  | some t =>
    match updDateField body with
    | some none => (Resp.internal, store)
    | some (some d) =>
      (Resp.ok (applyUpd body t (some d)),
        store.map fun u => if u.id == id then applyUpd body u (some d) else u)
    | none =>
      (Resp.ok (applyUpd body t none),
        store.map fun u => if u.id == id then applyUpd body u none else u)

/-- `DELETE /transactions/:id` (lines 221–236): ownership-checked lookup
by `(id, userId)` with 404 on absence; on success the row with that id
is removed and 204 returned. -/
def deleteHandler (userId id : String) (store : List Transaction) :
    Resp × List Transaction :=
  match store.find? (fun t => t.id == id && t.userId == userId) with
  | none => (Resp.notFound, store)
  | some _ => (Resp.noContent, store.filter fun t => !(t.id == id))

/-! ### Import route -/

/-- Conversion of one regex match into a `transactionsToCreate` element
(lines 149–181): automatic categorization of the description, date
rebuilt through the `YYYY-MM-DD` template from the split date capture,
amount through the two `replace` calls and `parseFloat`, type fixed to
EXPENSE. -/
def lineToEntry (userId : String) (dateStr description amountStr : String) : ImportEntry :=
  { title := description,
    amount := jsAmount amountStr,
    ttype := "EXPENSE",
    category := categorize description,
    date :=
      match jsSplit '/' dateStr with
      | day :: month :: year :: _ => jsDateISO (year ++ "-" ++ month ++ "-" ++ day)
      | _ => none,
    userId := userId }

/-- Parse of one import line: the anchored regex match and, on success,
the entry construction. -/
def parseLine (userId : String) (line : String) : Option ImportEntry :=
  match matchLine line.data with
  | some (dateStr, desc, amt) =>
    some (lineToEntry userId (String.mk dateStr) (String.mk desc) (String.mk amt))
  | none => none

/-- The parsing loop of `POST /transactions/import` (lines 140–182):
split on newlines, drop the lines blank after trimming, keep the
entries of the matching lines in order. -/
def importParse (userId : String) (textContent : String) : List ImportEntry :=
  ((jsSplit '\n' textContent).filter nonBlank).filterMap (parseLine userId)

/-- Conversion accepted by the store for one entry of the bulk insert:
an Invalid Date or NaN amount makes the whole `createMany` call
throw. -/
def entryToTx (now : Int) (freshId : String) (e : ImportEntry) : Option Transaction :=
  match e.date, e.amount with
  | some d, some a =>
    some { id := freshId, userId := e.userId, title := e.title, amount := a,
           ttype := e.ttype, category := e.category, date := d, createdAt := now }
  | _, _ => none

/-- Sequencing of the bulk insert: all rows or none. -/
def seqTx : List (Option Transaction) → Option (List Transaction)
  | [] => some []
  | o :: r =>
    match o, seqTx r with
    | some t, some ts => some (t :: ts)
    | _, _ => none

/-- `POST /transactions/import` (lines 129–197): falsy `textContent` is
a 400; otherwise the parsed batch is bulk-inserted (the insert call is
skipped when the batch is empty) and the 201 response reports
`transactionsToCreate.length`. -/
def importHandler (userId : String) (textContent : Option String)
    (freshId : Nat → String) (now : Int) (store : List Transaction) :
    Resp × List Transaction :=
  match textContent with
  | none => (Resp.badRequest, store)
  | some txt =>
    if txt == "" then (Resp.badRequest, store)
    else
      let entries := importParse userId txt
      if entries.length = 0 then (Resp.okImport 0, store)
      else
        match seqTx (((List.range entries.length).zip entries).map
            fun p => entryToTx now (freshId p.1) p.2) with
        | some txs => (Resp.okImport entries.length, store ++ txs)
        | none => (Resp.internal, store)

/-! ### Auth gate -/

/-- Keyed hash used by the modelled token collaborator. -/
def strHash (s : String) : Nat :=
  s.data.foldl (fun a c => a * 131 + c.toNat) 7

/-- External collaborator modelled from the spec (§4.1, §6): the token
library's signature over subject and expiry under the shared secret. -/
def jwtMac (secret sub : String) (exp : Nat) : Nat :=
  (strHash secret * 1000003 + strHash sub) * 131 + exp

/-- External collaborator modelled from the spec: signing produces a
dot-separated credential embedding subject, expiry and signature. -/
def jwtSign (secret sub : String) (exp : Nat) : String :=
  sub ++ "." ++ String.mk (toDigits exp) ++ "." ++ String.mk (toDigits (jwtMac secret sub exp))

/-- External collaborator modelled from the spec: verification succeeds
(returning the subject claim) exactly on a well-formed credential whose
signature matches the shared secret and whose expiry lies in the
future; on any other input the library throws, here `none`. -/
def jwtVerify (secret : String) (now : Nat) (token : String) : Option String :=
  match jsSplit '.' token with
  | [sub, expS, sigS] =>
    match parseDigits? expS.data, parseDigits? sigS.data with
    | some exp, some sig =>
      if sig = jwtMac secret sub exp ∧ now < exp then some sub else none
    | _, _ => none
  | _ => none

/-- `authMiddleware` (`auth.ts` lines 11–48): a missing header is a 401;
the token is the second space-separated segment of the header value (a
missing segment makes the verification call throw); failed verification
is a 401; on success the subject claim is attached as `req.userId`.
`none` is the 401 outcome, `some sub` the pass-through. -/
def authMiddleware (secret : String) (now : Nat) (authorization : Option String) :
    Option String :=
  match authorization with
  | none => none
  | some a =>
    match (jsSplit ' ' a)[1]? with
    | none => none
    | some token => jwtVerify secret now token

/-- Mounting of the middleware on `/transactions` (line 60): a failed
gate answers 401 and the route handler never runs. -/
def withAuth (secret : String) (now : Nat) (authorization : Option String)
    (handler : String → List Transaction → Resp × List Transaction)
    (store : List Transaction) : Resp × List Transaction :=
  match authMiddleware secret now authorization with
  | none => (Resp.unauthorized, store)
  | some sub => handler sub store

/-! ### Calendar lemmas -/

theorem cumDays_succ (y : Int) (k : Nat) :
    cumDays y (k + 1) = cumDays y k + daysInMonth y (k + 1) := rfl

theorem isLeapB_iff (y : Int) :
    isLeapB y = true ↔ ((y % 4 = 0 ∧ ¬ y % 100 = 0) ∨ y % 400 = 0) := by
  simp [isLeapB]

theorem daysToYear_succ_of_leap (y : Int) (hb : isLeapB y = true) :
    daysToYear (y + 1) = daysToYear y + 366 := by
  have h := (isLeapB_iff y).mp hb
  unfold daysToYear
  rw [Int.fdiv_eq_ediv _ (by omega), Int.fdiv_eq_ediv _ (by omega),
      Int.fdiv_eq_ediv _ (by omega), Int.fdiv_eq_ediv _ (by omega),
      Int.fdiv_eq_ediv _ (by omega), Int.fdiv_eq_ediv _ (by omega)]
  omega

theorem daysToYear_succ_of_not_leap (y : Int) (hb : isLeapB y = false) :
    daysToYear (y + 1) = daysToYear y + 365 := by
  have h : ¬ ((y % 4 = 0 ∧ ¬ y % 100 = 0) ∨ y % 400 = 0) := by
    intro hc
    rw [← isLeapB_iff y] at hc
    simp [hb] at hc
  unfold daysToYear
  rw [Int.fdiv_eq_ediv _ (by omega), Int.fdiv_eq_ediv _ (by omega),
      Int.fdiv_eq_ediv _ (by omega), Int.fdiv_eq_ediv _ (by omega),
      Int.fdiv_eq_ediv _ (by omega), Int.fdiv_eq_ediv _ (by omega)]
  omega

theorem cumDays_eleven_of_leap (y : Int) (hb : isLeapB y = true) :
    cumDays y 11 = 335 := by
  simp [cumDays, daysInMonth, hb]

theorem cumDays_eleven_of_not_leap (y : Int) (hb : isLeapB y = false) :
    cumDays y 11 = 334 := by
  simp [cumDays, daysInMonth, hb]

/-- The `new Date(y, m-1, 1)` start of the list filter is midnight of
the first of calendar month `m` when the supplied year and month are in
range. -/
theorem jsMakeDate_month_start (y : Int) (m : Nat)
    (h100 : 100 ≤ y) (h1 : 1 ≤ m) (h12 : m ≤ 12) :
    jsMakeDate y ((m : Int) - 1) 1 0 0 0 = secsFromCivil y m 1 0 0 0 := by
  unfold jsMakeDate secsFromCivil
  rw [if_neg (by omega : ¬ (0 ≤ y ∧ y ≤ 99))]
  rw [show Int.fdiv ((m : Int) - 1) 12 = 0 by
        rw [Int.fdiv_eq_ediv _ (by omega)]; omega]
  rw [show Int.fmod ((m : Int) - 1) 12 = (m : Int) - 1 by
        rw [Int.fmod_eq_emod _ (by omega)]; omega]
  rw [show ((m : Int) - 1).toNat + 1 = m by omega]
  ring_nf

/-- The `new Date(y, m, 0, 23, 59, 59)` end of the list filter is the
last second of calendar month `m` when the supplied year and month are
in range. -/
theorem jsMakeDate_month_end (y : Int) (m : Nat)
    (h100 : 100 ≤ y) (h1 : 1 ≤ m) (h12 : m ≤ 12) :
    jsMakeDate y (m : Int) 0 23 59 59 = secsFromCivil y m (daysInMonth y m) 23 59 59 := by
  unfold jsMakeDate secsFromCivil
  rw [if_neg (by omega : ¬ (0 ≤ y ∧ y ≤ 99))]
  by_cases hm : m ≤ 11
  · rw [show Int.fdiv (m : Int) 12 = 0 by
          rw [Int.fdiv_eq_ediv _ (by omega)]; omega]
    rw [show Int.fmod (m : Int) 12 = (m : Int) by
          rw [Int.fmod_eq_emod _ (by omega)]; omega]
    rw [show ((m : Int)).toNat + 1 = m + 1 by omega]
    obtain ⟨k, rfl⟩ : ∃ k, m = k + 1 := ⟨m - 1, by omega⟩
    unfold daysFromCivil
    simp only [Nat.add_sub_cancel]
    rw [cumDays_succ]
    ring_nf
  · have hm12 : m = 12 := by omega
    subst hm12
    rw [show Int.fdiv ((12 : Nat) : Int) 12 = 1 by decide]
    rw [show Int.fmod ((12 : Nat) : Int) 12 = 0 by decide]
    unfold daysFromCivil
    rcases hb : isLeapB y with hfalse | htrue
    · have hy := daysToYear_succ_of_not_leap y hb
      have hc := cumDays_eleven_of_not_leap y hb
      simp only [Int.toNat_zero, Nat.zero_add, Nat.add_sub_cancel]
      rw [show (1 - 1 : Nat) = 0 from rfl]
      rw [show cumDays (y + 1) 0 = 0 from rfl]
      rw [show (12 - 1 : Nat) = 11 from rfl]
      rw [hc, hy]
      rw [show daysInMonth y 12 = 31 from rfl]
      ring_nf
    · have hy := daysToYear_succ_of_leap y hb
      have hc := cumDays_eleven_of_leap y hb
      simp only [Int.toNat_zero, Nat.zero_add, Nat.add_sub_cancel]
      rw [show (1 - 1 : Nat) = 0 from rfl]
      rw [show cumDays (y + 1) 0 = 0 from rfl]
      rw [show (12 - 1 : Nat) = 11 from rfl]
      rw [hc, hy]
      rw [show daysInMonth y 12 = 31 from rfl]
      ring_nf

/-! ### List helper lemmas -/

theorem find?_eq_some_of_unique {α : Type} {p : α → Bool} {l : List α} {r : α}
    (hmem : r ∈ l) (hp : p r = true) (huniq : ∀ t ∈ l, p t = true → t = r) :
    l.find? p = some r := by
  induction l with
  | nil => cases hmem
  | cons a t ih =>
    by_cases ha : p a = true
    · have haa : a = r := huniq a (List.mem_cons_self a t) ha
      subst haa
      simp [List.find?_cons, ha]
    · have ha' : p a = false := by
        cases h : p a
        · rfl
        · exact absurd h ha
      rcases List.mem_cons.mp hmem with rfl | hmt
      · exact absurd hp ha
      · simp only [List.find?_cons, ha']
        exact ih hmt fun t ht hpt => huniq t (List.mem_cons_of_mem a ht) hpt

theorem length_filterMap_eq_countP {α β : Type} (f : α → Option β) (l : List α) :
    (l.filterMap f).length = l.countP (fun a => (f a).isSome) := by
  induction l with
  | nil => rfl
  | cons a t ih =>
    rcases hf : f a with _ | b <;>
      simp [List.filterMap_cons, hf, List.countP_cons, ih]

/-! ### Split lemmas -/

theorem splitChar_ne_nil (sep : Char) (l : List Char) : splitChar sep l ≠ [] := by
  induction l with
  | nil => simp [splitChar]
  | cons c r ih =>
    by_cases hc : c = sep
    · simp [splitChar, hc]
    · simp only [splitChar, if_neg hc]
      rcases h : splitChar sep r with _ | ⟨h1, t1⟩ <;> simp

theorem splitChar_append_of_sep_free (sep : Char) (xs ys : List Char)
    (hxs : ∀ c ∈ xs, ¬ c = sep) :
    splitChar sep (xs ++ ys) = (splitChar sep ys).modifyHead (fun h => xs ++ h) := by
  induction xs with
  | nil =>
    rcases h : splitChar sep ys with _ | ⟨h1, t1⟩ <;> simp [List.modifyHead, h]
  | cons c xs ih =>
    have hc : ¬ c = sep := hxs c (List.mem_cons_self c xs)
    simp only [List.cons_append, splitChar, if_neg hc, List.append_eq]
    rw [ih fun d hd => hxs d (List.mem_cons_of_mem c hd)]
    rcases h : splitChar sep ys with _ | ⟨h1, t1⟩
    · exact absurd h (splitChar_ne_nil sep ys)
    · simp [List.modifyHead]

theorem splitChar_sep_free (sep : Char) (l : List Char) (h : ∀ c ∈ l, ¬ c = sep) :
    splitChar sep l = [l] := by
  have := splitChar_append_of_sep_free sep l [] h
  simpa [splitChar, List.modifyHead] using this

theorem splitChar_append_sep (sep : Char) (xs ys : List Char)
    (hxs : ∀ c ∈ xs, ¬ c = sep) :
    splitChar sep (xs ++ sep :: ys) = xs :: splitChar sep ys := by
  rw [splitChar_append_of_sep_free sep xs _ hxs]
  simp [splitChar, List.modifyHead]

theorem mk_data (s : String) : String.mk s.data = s := rfl

/-! ### Decimal digit lemmas -/

theorem digitChar_toNat (k : Nat) (hk : k < 10) : (digitChar k).toNat = 48 + k := by
  interval_cases k <;> decide

theorem digitChar_isDigit (k : Nat) (hk : k < 10) : isDigitB (digitChar k) = true := by
  interval_cases k <;> decide

theorem isDigitB_ne_dot {c : Char} (h : isDigitB c = true) : ¬ c = '.' := by
  intro hc
  subst hc
  exact absurd h (by decide)

theorem isDigitB_ne_space {c : Char} (h : isDigitB c = true) : ¬ c = ' ' := by
  intro hc
  subst hc
  exact absurd h (by decide)

theorem toDigitsCore_all_digits (fuel n : Nat) (hf : n < fuel) :
    (toDigitsCore fuel n).all isDigitB = true := by
  induction fuel generalizing n with
  | zero => omega
  | succ fuel ih =>
    unfold toDigitsCore
    split
    · rename_i h
      simp [digitChar_isDigit n h]
    · rename_i h
      rw [List.all_append]
      have h1 := ih (n / 10) (by omega)
      have h2 := digitChar_isDigit (n % 10) (Nat.mod_lt _ (by omega))
      simp [h1, h2]

theorem toDigits_all_digits (n : Nat) : (toDigits n).all isDigitB = true :=
  toDigitsCore_all_digits (n + 1) n (Nat.lt_succ_self n)

theorem toDigits_dot_free (n : Nat) : ∀ c ∈ toDigits n, ¬ c = '.' := by
  intro c hc
  exact isDigitB_ne_dot (by
    have := toDigits_all_digits n
    rw [List.all_eq_true] at this
    exact this c hc)

theorem toDigits_space_free (n : Nat) : ∀ c ∈ toDigits n, ¬ c = ' ' := by
  intro c hc
  exact isDigitB_ne_space (by
    have := toDigits_all_digits n
    rw [List.all_eq_true] at this
    exact this c hc)

theorem digitsVal_append_single (l : List Char) (c : Char) :
    digitsVal (l ++ [c]) = digitsVal l * 10 + (c.toNat - 48) := by
  unfold digitsVal
  rw [List.foldl_append]
  rfl

theorem toDigits_ne_nil (n : Nat) : toDigits n ≠ [] := by
  unfold toDigits toDigitsCore
  split <;> simp

theorem digitsVal_toDigitsCore (fuel n : Nat) (hf : n < fuel) :
    digitsVal (toDigitsCore fuel n) = n := by
  induction fuel generalizing n with
  | zero => omega
  | succ fuel ih =>
    unfold toDigitsCore
    split
    · rename_i h
      simp [digitsVal, digitChar_toNat n h]
    · rename_i h
      rw [digitsVal_append_single, ih (n / 10) (by omega),
          digitChar_toNat (n % 10) (Nat.mod_lt _ (by omega))]
      omega

theorem digitsVal_toDigits (n : Nat) : digitsVal (toDigits n) = n :=
  digitsVal_toDigitsCore (n + 1) n (Nat.lt_succ_self n)

theorem parseDigits_toDigits (n : Nat) : parseDigits? (toDigits n) = some n := by
  unfold parseDigits?
  rw [if_pos ⟨toDigits_ne_nil n, toDigits_all_digits n⟩, digitsVal_toDigits]

/-! ### String data lemmas -/

theorem data_append (a b : String) : (a ++ b).data = a.data ++ b.data := rfl

theorem data_mk (l : List Char) : (String.mk l).data = l := rfl

theorem data_dot : ("." : String).data = ['.'] := rfl

theorem data_space : (" " : String).data = [' '] := rfl

/-! ### Token lemmas -/

theorem jsSplit_dot_triple (sub : String) (e g : List Char)
    (hsub : ∀ c ∈ sub.data, ¬ c = '.')
    (he : ∀ c ∈ e, ¬ c = '.') (hg : ∀ c ∈ g, ¬ c = '.') :
    jsSplit '.' (sub ++ "." ++ String.mk e ++ "." ++ String.mk g) =
      [sub, String.mk e, String.mk g] := by
  unfold jsSplit
  have hdata : (sub ++ "." ++ String.mk e ++ "." ++ String.mk g).data
      = sub.data ++ '.' :: (e ++ '.' :: g) := by
    simp [data_append, data_mk, data_dot, List.append_assoc]
  rw [hdata, splitChar_append_sep _ _ _ hsub, splitChar_append_sep _ _ _ he,
      splitChar_sep_free _ _ hg]
  simp [mk_data]

theorem jwtVerify_jwtSign (secret sub : String) (exp now : Nat)
    (hsub : ∀ c ∈ sub.data, ¬ c = '.') :
    jwtVerify secret now (jwtSign secret sub exp) =
      if now < exp then some sub else none := by
  unfold jwtVerify jwtSign
  rw [jsSplit_dot_triple sub _ _ hsub (toDigits_dot_free exp) (toDigits_dot_free _)]
  simp only [data_mk, parseDigits_toDigits]
  by_cases h : now < exp <;> simp [h]

theorem jwtVerify_forged (secret sub : String) (exp sig now : Nat)
    (hsub : ∀ c ∈ sub.data, ¬ c = '.')
    (hsig : ¬ sig = jwtMac secret sub exp) :
    jwtVerify secret now
      (sub ++ "." ++ String.mk (toDigits exp) ++ "." ++ String.mk (toDigits sig)) = none := by
  unfold jwtVerify
  rw [jsSplit_dot_triple sub _ _ hsub (toDigits_dot_free _) (toDigits_dot_free _)]
  simp only [data_mk, parseDigits_toDigits]
  rw [if_neg (by tauto)]

theorem jwtSign_space_free (secret sub : String) (exp : Nat)
    (hsub : ∀ c ∈ sub.data, ¬ c = ' ') :
    ∀ c ∈ (jwtSign secret sub exp).data, ¬ c = ' ' := by
  unfold jwtSign
  intro c hc
  simp only [data_append, data_mk, data_dot, List.mem_append, List.mem_singleton] at hc
  rcases hc with ((((h | h) | h) | h) | h)
  · exact hsub c h
  · subst h; decide
  · exact toDigits_space_free _ c h
  · subst h; decide
  · exact toDigits_space_free _ c h

theorem jsSplit_space_header (scheme token : String)
    (hs : ∀ c ∈ scheme.data, ¬ c = ' ') (ht : ∀ c ∈ token.data, ¬ c = ' ') :
    jsSplit ' ' (scheme ++ " " ++ token) = [scheme, token] := by
  unfold jsSplit
  have hdata : (scheme ++ " " ++ token).data = scheme.data ++ ' ' :: token.data := by
    simp [data_append, data_space, List.append_assoc]
  rw [hdata, splitChar_append_sep _ _ _ hs, splitChar_sep_free _ _ ht]
  simp [mk_data]

/-! ### Claim C6 -/

/-- C6: the categorizer is a total deterministic function of the
description: for every input string it returns exactly the category of
the first rule, in table order, whose keyword set matches as a
case-insensitive substring — and "Outros" when no rule matches.  The
right-hand side is the specification's ordered-rule-table reading, the
left the code's `if`/`else if` ladder. -/
theorem c6_categorizer_first_match (s : String) :
    categorize s = firstMatchingCategory s := by
  simp only [categorize, firstMatchingCategory, categoryRules, findCat,
    List.any_cons, List.any_nil, Bool.or_false, Bool.or_assoc]

/-! ### Claim C7 -/

/-- C7: the auth gate fails exactly when the Authorization header is
absent, when the header value has no token segment after the scheme
prefix (no second space-separated segment), or when the token does not
verify — under the modelled token collaborator, exactly on a forged
signature or an expired token; in every failing case the protected
operation answers Unauthorized with the store untouched, and otherwise
the handler runs with the token's subject claim as the owner id. -/
theorem c7_auth_gate (secret : String) (now : Nat)
    (handler : String → List Transaction → Resp × List Transaction)
    (store : List Transaction) :
    (withAuth secret now none handler store = (Resp.unauthorized, store)) ∧
    (∀ a : String, (jsSplit ' ' a)[1]? = none →
      withAuth secret now (some a) handler store = (Resp.unauthorized, store)) ∧
    (∀ a token : String, (jsSplit ' ' a)[1]? = some token →
      jwtVerify secret now token = none →
      withAuth secret now (some a) handler store = (Resp.unauthorized, store)) ∧
    (∀ a token sub : String, (jsSplit ' ' a)[1]? = some token →
      jwtVerify secret now token = some sub →
      withAuth secret now (some a) handler store = handler sub store) ∧
    (∀ sub : String, ∀ exp : Nat, (∀ c ∈ sub.data, ¬ c = '.') →
      (jwtVerify secret now (jwtSign secret sub exp) = some sub ↔ now < exp)) ∧
    (∀ sub : String, ∀ exp sig : Nat, (∀ c ∈ sub.data, ¬ c = '.') →
      ¬ sig = jwtMac secret sub exp →
      jwtVerify secret now
        (sub ++ "." ++ String.mk (toDigits exp) ++ "." ++ String.mk (toDigits sig))
        = none) := by
  refine ⟨rfl, ?_, ?_, ?_, ?_, ?_⟩
  · intro a h
    simp only [withAuth, authMiddleware, h]
  · intro a token h hv
    simp only [withAuth, authMiddleware, h, hv]
  · intro a token sub h hv
    simp only [withAuth, authMiddleware, h, hv]
  · intro sub exp hsub
    rw [jwtVerify_jwtSign secret sub exp now hsub]
    by_cases h : now < exp <;> simp [h]
  · intro sub exp sig hsub hsig
    exact jwtVerify_forged secret sub exp sig now hsub hsig

/-- Concrete instance of the auth-gate theorem: a missing header and an
expired token are both 401 with the store unchanged, and a fresh token
reaches the handler with the resolved subject. -/
theorem c7_auth_gate_witness :
    withAuth "s3cret" 0 none (fun sub st => listHandler sub none none st) []
      = (Resp.unauthorized, []) ∧
    withAuth "s3cret" 99 (some ("Bearer " ++ jwtSign "s3cret" "user-1" 50))
      (fun sub st => listHandler sub none none st) [] = (Resp.unauthorized, []) ∧
    withAuth "s3cret" 7 (some ("Bearer " ++ jwtSign "s3cret" "user-1" 50))
      (fun sub st => listHandler sub none none st) []
      = listHandler "user-1" none none [] := by
  refine ⟨(c7_auth_gate "s3cret" 0 _ []).1, ?_, ?_⟩
  · exact (c7_auth_gate "s3cret" 99 _ []).2.2.1
      ("Bearer " ++ jwtSign "s3cret" "user-1" 50) (jwtSign "s3cret" "user-1" 50)
      (by decide) (by decide)
  · exact (c7_auth_gate "s3cret" 7 _ []).2.2.2.1
      ("Bearer " ++ jwtSign "s3cret" "user-1" 50) (jwtSign "s3cret" "user-1" 50) "user-1"
      (by decide) (by decide)

/-! ### Claim C9 -/

/-- C9: the gate never validates the scheme prefix: any header s ++ " "
++ t with an arbitrary space-free scheme word s and a verifying token t
is accepted, resolving the owner from t's subject claim; and the gate's
outcome depends only on the second space-separated segment of the
header value. -/
theorem c9_scheme_ignored (secret : String) (now : Nat) :
    (∀ scheme token sub : String,
      (∀ c ∈ scheme.data, ¬ c = ' ') → (∀ c ∈ token.data, ¬ c = ' ') →
      jwtVerify secret now token = some sub →
      authMiddleware secret now (some (scheme ++ " " ++ token)) = some sub) ∧
    (∀ a b : String, (jsSplit ' ' a)[1]? = (jsSplit ' ' b)[1]? →
      authMiddleware secret now (some a) = authMiddleware secret now (some b)) := by
  constructor
  · intro scheme token sub hs ht hv
    simp only [authMiddleware, jsSplit_space_header scheme token hs ht]
    simpa using hv
  · intro a b h
    simp only [authMiddleware, h]

/-- Concrete instance of the scheme-bypass theorem: a header using the
scheme word Basic is accepted and resolves the token's subject. -/
theorem c9_scheme_ignored_witness :
    authMiddleware "s3cret" 7 (some ("Basic " ++ jwtSign "s3cret" "user-1" 50))
      = some "user-1" := by
  exact (c9_scheme_ignored "s3cret" 7).1 "Basic" (jwtSign "s3cret" "user-1" 50) "user-1"
    (by decide) (by decide) (by decide)

/-! ### Amount evaluation lemmas -/

theorem takeWhile_all_append (p : Char → Bool) (a l : List Char) (ha : a.all p = true) :
    (a ++ l).takeWhile p = a ++ l.takeWhile p := by
  induction a with
  | nil => simp
  | cons c t ih =>
    rw [List.all_cons, Bool.and_eq_true] at ha
    simp [List.takeWhile_cons, ha.1, ih ha.2]

theorem jsParseFloat_split (a rest : List Char) (ha : a.all isDigitB = true)
    (hane : a ≠ []) :
    jsParseFloat (a ++ '.' :: rest) =
      some ((digitsVal a : ℚ) +
        (digitsVal (rest.takeWhile isDigitB) : ℚ) / 10 ^ (rest.takeWhile isDigitB).length) := by
  unfold jsParseFloat
  have h1 : (a ++ '.' :: rest).takeWhile isDigitB = a := by
    rw [takeWhile_all_append isDigitB a _ ha]
    simp [List.takeWhile_cons, (by decide : isDigitB '.' = false)]
  rw [h1, List.drop_left]
  show (if a = [] ∧ List.takeWhile isDigitB rest = [] then none
    else some ((digitsVal a : ℚ) + (digitsVal (rest.takeWhile isDigitB) : ℚ)
      / 10 ^ (rest.takeWhile isDigitB).length)) = _
  rw [if_neg fun hc => hane hc.1]

theorem jsAmount_4590 : jsAmount "45,90" = some ((459 : ℚ) / 10) := by
  have h1 : replaceFirst ',' ['.'] (replaceFirst '.' [] "45,90".data)
      = ['4', '5'] ++ '.' :: ['9', '0'] := by decide
  rw [jsAmount, h1, jsParseFloat_split _ _ (by decide) (by decide)]
  rw [show List.takeWhile isDigitB ['9', '0'] = ['9', '0'] from by decide]
  rw [show digitsVal ['4', '5'] = 45 from by decide,
      show digitsVal ['9', '0'] = 90 from by decide]
  norm_num

theorem jsAmount_2300 : jsAmount "23,00" = some ((23 : ℚ)) := by
  have h1 : replaceFirst ',' ['.'] (replaceFirst '.' [] "23,00".data)
      = ['2', '3'] ++ '.' :: ['0', '0'] := by decide
  rw [jsAmount, h1, jsParseFloat_split _ _ (by decide) (by decide)]
  rw [show List.takeWhile isDigitB ['0', '0'] = ['0', '0'] from by decide]
  rw [show digitsVal ['2', '3'] = 23 from by decide,
      show digitsVal ['0', '0'] = 0 from by decide]
  norm_num

theorem jsAmount_1000 : jsAmount "10,00" = some ((10 : ℚ)) := by
  have h1 : replaceFirst ',' ['.'] (replaceFirst '.' [] "10,00".data)
      = ['1', '0'] ++ '.' :: ['0', '0'] := by decide
  rw [jsAmount, h1, jsParseFloat_split _ _ (by decide) (by decide)]
  rw [show List.takeWhile isDigitB ['0', '0'] = ['0', '0'] from by decide]
  rw [show digitsVal ['1', '0'] = 10 from by decide,
      show digitsVal ['0', '0'] = 0 from by decide]
  norm_num

/-- On an amount with two grouping dots, the first `replace` removes
only the first dot, so `parseFloat` stops at the surviving second dot
and the value collapses to 1234.567. -/
theorem jsAmount_grouped : jsAmount "1.234.567,89" = some ((1234567 : ℚ) / 1000) := by
  have h1 : replaceFirst ',' ['.'] (replaceFirst '.' [] "1.234.567,89".data)
      = ['1', '2', '3', '4'] ++ '.' :: ['5', '6', '7', '.', '8', '9'] := by decide
  rw [jsAmount, h1, jsParseFloat_split _ _ (by decide) (by decide)]
  rw [show List.takeWhile isDigitB ['5', '6', '7', '.', '8', '9'] = ['5', '6', '7'] from by decide]
  rw [show digitsVal ['1', '2', '3', '4'] = 1234 from by decide,
      show digitsVal ['5', '6', '7'] = 567 from by decide]
  norm_num

/-! ### Import line evaluations -/

/-- The worked example of the specification's import property. -/
def importExample : String :=
  "05/09/2025 - Ifood Delivery - R$ 45,90\nGarbage line\n06/09/2025 - Uber Viagem - R$ 23,00"

theorem parseLine_ifood (u : String) :
    parseLine u "05/09/2025 - Ifood Delivery - R$ 45,90" =
      some (lineToEntry u "05/09/2025" "Ifood Delivery" "45,90") := by
  unfold parseLine
  rw [show matchLine "05/09/2025 - Ifood Delivery - R$ 45,90".data =
      some ("05/09/2025".data, "Ifood Delivery".data, "45,90".data) from by decide]

theorem parseLine_garbage (u : String) : parseLine u "Garbage line" = none := by
  unfold parseLine
  rw [show matchLine "Garbage line".data = none from by decide]

theorem parseLine_uber (u : String) :
    parseLine u "06/09/2025 - Uber Viagem - R$ 23,00" =
      some (lineToEntry u "06/09/2025" "Uber Viagem" "23,00") := by
  unfold parseLine
  rw [show matchLine "06/09/2025 - Uber Viagem - R$ 23,00".data =
      some ("06/09/2025".data, "Uber Viagem".data, "23,00".data) from by decide]

theorem lineToEntry_ifood (u : String) :
    lineToEntry u "05/09/2025" "Ifood Delivery" "45,90" =
      { title := "Ifood Delivery", amount := some ((459 : ℚ) / 10), ttype := "EXPENSE",
        category := "Alimentação", date := some (secsFromCivil 2025 9 5 0 0 0),
        userId := u } := by
  unfold lineToEntry
  simp only [ImportEntry.mk.injEq]
  exact ⟨trivial, jsAmount_4590, trivial, by decide, by decide, trivial⟩

theorem lineToEntry_uber (u : String) :
    lineToEntry u "06/09/2025" "Uber Viagem" "23,00" =
      { title := "Uber Viagem", amount := some ((23 : ℚ)), ttype := "EXPENSE",
        category := "Transporte", date := some (secsFromCivil 2025 9 6 0 0 0),
        userId := u } := by
  unfold lineToEntry
  simp only [ImportEntry.mk.injEq]
  exact ⟨trivial, jsAmount_2300, trivial, by decide, by decide, trivial⟩

theorem importParse_example (u : String) :
    importParse u importExample =
      [ { title := "Ifood Delivery", amount := some ((459 : ℚ) / 10), ttype := "EXPENSE",
          category := "Alimentação", date := some (secsFromCivil 2025 9 5 0 0 0),
          userId := u },
        { title := "Uber Viagem", amount := some ((23 : ℚ)), ttype := "EXPENSE",
          category := "Transporte", date := some (secsFromCivil 2025 9 6 0 0 0),
          userId := u } ] := by
  unfold importParse
  rw [show (jsSplit '\n' importExample).filter nonBlank =
      ["05/09/2025 - Ifood Delivery - R$ 45,90", "Garbage line",
       "06/09/2025 - Uber Viagem - R$ 23,00"] from by decide]
  simp only [List.filterMap_cons, parseLine_ifood, parseLine_garbage, parseLine_uber,
    List.filterMap_nil, lineToEntry_ifood, lineToEntry_uber]

/-! ### Claim C3 -/

/-- C3: on the specification's worked example the parser yields exactly
the two expected entries — Ifood Delivery, 45.90, Alimentação, EXPENSE,
2025-09-05 and Uber Viagem, 23.00, Transporte, EXPENSE, 2025-09-06 —
the unmatched middle line is silently dropped and the reported
created-count is 2; in general every parsed entry carries type EXPENSE
and every reported count equals the number of non-blank lines matching
the pattern. -/
theorem c3_import_example (uid : String) (freshId : Nat → String) (now : Int)
    (store : List Transaction) :
    importParse uid importExample =
      [ { title := "Ifood Delivery", amount := some ((459 : ℚ) / 10), ttype := "EXPENSE",
          category := "Alimentação", date := some (secsFromCivil 2025 9 5 0 0 0),
          userId := uid },
        { title := "Uber Viagem", amount := some ((23 : ℚ)), ttype := "EXPENSE",
          category := "Transporte", date := some (secsFromCivil 2025 9 6 0 0 0),
          userId := uid } ] ∧
    (importHandler uid (some importExample) freshId now store).1 = Resp.okImport 2 ∧
    (∀ text : String, ∀ e ∈ importParse uid text, e.ttype = "EXPENSE") ∧
    (∀ text : String, ∀ store2 : List Transaction, ∀ n : Nat,
      (importHandler uid (some text) freshId now store2).1 = Resp.okImport n →
      n = ((jsSplit '\n' text).filter nonBlank).countP fun l => (parseLine uid l).isSome) := by
  refine ⟨importParse_example uid, ?_, ?_, ?_⟩
  · simp only [importHandler]
    rw [if_neg (by decide : ¬ (importExample == "") = true)]
    rw [importParse_example]
    rfl
  · intro text e he
    obtain ⟨l, _, hpl⟩ := List.mem_filterMap.mp he
    unfold parseLine at hpl
    rcases hml : matchLine l.data with _ | ⟨d, desc, amt⟩
    · rw [hml] at hpl
      cases hpl
    · rw [hml] at hpl
      injection hpl with h
      subst h
      rfl
  · intro text store2 n h
    have hlen : (importParse uid text).length
        = ((jsSplit '\n' text).filter nonBlank).countP fun l => (parseLine uid l).isSome := by
      unfold importParse
      exact length_filterMap_eq_countP _ _
    simp only [importHandler] at h
    by_cases he : (text == "") = true
    · rw [if_pos he] at h
      cases h
    · rw [if_neg he] at h
      by_cases hz : (importParse uid text).length = 0
      · rw [if_pos hz] at h
        injection h with h
        omega
      · rw [if_neg hz] at h
        rcases hs : seqTx (((List.range (importParse uid text).length).zip
            (importParse uid text)).map fun p => entryToTx now (freshId p.1) p.2) with _ | txs
        · rw [hs] at h
          cases h
        · rw [hs] at h
          injection h with h
          omega

/-! ### Claim C5 -/

/-- Import line whose amount carries two grouping separators. -/
def groupedLine : String := "05/09/2025 - Loja Grande - R$ 1.234.567,89"

/-- C5: the claim requires the amount of a matching line to be the
grouping-free decimal reading, so "R$ 1.234.567,89" should become
1234567.89; the code's `replace('.', '')` removes only the first
grouping dot, `parseFloat` stops at the surviving second dot, and the
stored amount is 1234.567 instead. -/
theorem c5_grouped_amount_truncated :
    jsAmount "1.234.567,89" = some ((1234567 : ℚ) / 1000) ∧
    ¬ ((1234567 : ℚ) / 1000 = (123456789 : ℚ) / 100) ∧
    (importParse "u" groupedLine).map (fun e => e.amount)
      = [some ((1234567 : ℚ) / 1000)] := by
  refine ⟨jsAmount_grouped, by norm_num, ?_⟩
  have hp : parseLine "u" groupedLine
      = some (lineToEntry "u" "05/09/2025" "Loja Grande" "1.234.567,89") := by
    unfold parseLine groupedLine
    rw [show matchLine "05/09/2025 - Loja Grande - R$ 1.234.567,89".data
        = some ("05/09/2025".data, "Loja Grande".data, "1.234.567,89".data) from by decide]
  unfold importParse
  rw [show (jsSplit '\n' groupedLine).filter nonBlank = [groupedLine] from by decide]
  simp only [List.filterMap_cons, hp, List.filterMap_nil, List.map_cons, List.map_nil]
  rw [show (lineToEntry "u" "05/09/2025" "Loja Grande" "1.234.567,89").amount
      = jsAmount "1.234.567,89" from rfl, jsAmount_grouped]

/-! ### Claim C10 -/

/-- Import line with a well-shaped but out-of-range calendar date. -/
def invalidDateLine : String := "31/02/2025 - Teste - R$ 10,00"

/-- C10: a line matching the pattern's shape whose day/month is out of
range is not dropped: it stays in the batch with an Invalid-Date value
(the ISO reinterpretation of 31/02/2025 has no valid calendar day), so
it reaches the bulk insert — which then fails — instead of being
silently excluded like a non-matching line. -/
theorem c10_invalid_date_reaches_insert :
    importParse "u" invalidDateLine =
      [{ title := "Teste", amount := some ((10 : ℚ)), ttype := "EXPENSE",
         category := "Outros", date := none, userId := "u" }] ∧
    jsDateISO "2025-02-31" = none ∧
    importHandler "u" (some invalidDateLine) (fun _ => "id0") 0 []
      = (Resp.internal, []) := by
  have hp : parseLine "u" invalidDateLine
      = some (lineToEntry "u" "31/02/2025" "Teste" "10,00") := by
    unfold parseLine invalidDateLine
    rw [show matchLine "31/02/2025 - Teste - R$ 10,00".data
        = some ("31/02/2025".data, "Teste".data, "10,00".data) from by decide]
  have hentry : lineToEntry "u" "31/02/2025" "Teste" "10,00" =
      { title := "Teste", amount := some ((10 : ℚ)), ttype := "EXPENSE",
        category := "Outros", date := none, userId := "u" } := by
    unfold lineToEntry
    simp only [ImportEntry.mk.injEq]
    exact ⟨trivial, jsAmount_1000, trivial, by decide, by decide, trivial⟩
  have hparse : importParse "u" invalidDateLine =
      [{ title := "Teste", amount := some ((10 : ℚ)), ttype := "EXPENSE",
         category := "Outros", date := none, userId := "u" }] := by
    unfold importParse
    rw [show (jsSplit '\n' invalidDateLine).filter nonBlank = [invalidDateLine] from by decide]
    simp only [List.filterMap_cons, hp, List.filterMap_nil, hentry]
  refine ⟨hparse, by decide, ?_⟩
  simp only [importHandler]
  rw [if_neg (by decide : ¬ (invalidDateLine == "") = true)]
  rw [hparse]
  rfl

/-! ### Claim C4 -/

/-- C4 counterexample: a request with all five fields present but
amount equal to 0 is rejected with Validation (the JS gate tests
truthiness, and 0 is falsy), contradicting the claim that presence of
the five fields suffices. -/
theorem c4_zero_amount_rejected :
    createHandler "u"
      { title := some "Bônus", amount := some 0, ttype := some "INCOME",
        category := some "Outros", date := some "2025-01-01" } "id1" 0 []
      = (Resp.badRequest, []) ∧
    (some "Bônus" : Option String) ≠ none ∧ (some (0 : ℚ) : Option ℚ) ≠ none ∧
    (some "INCOME" : Option String) ≠ none ∧ (some "Outros" : Option String) ≠ none ∧
    (some "2025-01-01" : Option String) ≠ none := by
  refine ⟨?_, by simp, by simp, by simp, by simp, by simp⟩
  simp only [createHandler]
  rw [if_pos (by simp :
    ("Bônus" == "" || (0 : ℚ) == 0 || "INCOME" == "" || "Outros" == "" || "2025-01-01" == "")
      = true)]

/-- C4 (amended): Create fails with Validation exactly when one of the
five fields is missing or JS-falsy (absent, empty string, or zero
amount); a Validation failure writes nothing; and when all five are
present and truthy the record is persisted with the owner attached and
returned (the date being the parse of the supplied string). -/
theorem c4_validation_amended (uid : String) (body : CreateBody) (freshId : String)
    (now : Int) (store : List Transaction) :
    ((createHandler uid body freshId now store).1 = Resp.badRequest ↔
      (body.title = none ∨ body.title = some "" ∨ body.amount = none ∨ body.amount = some 0 ∨
       body.ttype = none ∨ body.ttype = some "" ∨ body.category = none ∨
       body.category = some "" ∨ body.date = none ∨ body.date = some "")) ∧
    ((createHandler uid body freshId now store).1 = Resp.badRequest →
      (createHandler uid body freshId now store).2 = store) ∧
    (∀ title : String, ∀ amount : ℚ, ∀ ttype category dateStr : String, ∀ d : Int,
      body = { title := some title, amount := some amount, ttype := some ttype,
               category := some category, date := some dateStr } →
      ¬ title = "" → ¬ amount = 0 → ¬ ttype = "" → ¬ category = "" → ¬ dateStr = "" →
      jsNewDate dateStr = some d →
      createHandler uid body freshId now store =
        (Resp.ok { id := freshId, userId := uid, title := title, amount := amount,
                   ttype := ttype, category := category, date := d, createdAt := now },
         store ++ [{ id := freshId, userId := uid, title := title, amount := amount,
                     ttype := ttype, category := category, date := d, createdAt := now }])) := by
  obtain ⟨t, a, ty, cat, dt⟩ := body
  rcases t with _ | tv <;> rcases a with _ | av <;> rcases ty with _ | tyv <;>
    rcases cat with _ | catv <;> rcases dt with _ | dtv
  all_goals try (
    refine ⟨?_, ?_, ?_⟩
    · simp [createHandler]
    · intro hbr
      simp [createHandler]
    · intro title amount ttype category dateStr d h
      simp at h)
  refine ⟨?_, ?_, ?_⟩
  · constructor
    · intro hbr
      by_cases hcond : (tv == "" || av == 0 || tyv == "" || catv == "" || dtv == "") = true
      · simp only [Bool.or_eq_true, beq_iff_eq] at hcond
        simp only [Option.some.injEq]
        tauto
      · exfalso
        simp only [createHandler] at hbr
        rw [if_neg hcond] at hbr
        rcases hjd : jsNewDate dtv with _ | d
        · rw [hjd] at hbr
          simp at hbr
        · rw [hjd] at hbr
          simp at hbr
    · intro hdisj
      have hcond : (tv == "" || av == 0 || tyv == "" || catv == "" || dtv == "") = true := by
        simp only [Option.some.injEq] at hdisj
        simp only [Bool.or_eq_true, beq_iff_eq]
        rcases hdisj with h | h | h | h | h | h | h | h | h | h <;> simp_all
      simp only [createHandler]
      rw [if_pos hcond]
  · intro hbr
    simp only [createHandler] at hbr ⊢
    by_cases hcond : (tv == "" || av == 0 || tyv == "" || catv == "" || dtv == "") = true
    · rw [if_pos hcond]
    · rw [if_neg hcond] at hbr ⊢
      rcases hjd : jsNewDate dtv with _ | d
      · rfl
      · rw [hjd] at hbr
        simp at hbr
  · intro title amount ttype category dateStr d heq h1 h2 h3 h4 h5 hjd
    simp only [CreateBody.mk.injEq, Option.some.injEq] at heq
    obtain ⟨rfl, rfl, rfl, rfl, rfl⟩ := heq
    simp only [createHandler]
    rw [if_neg (by simp [beq_iff_eq, h1, h2, h3, h4, h5]), hjd]

/-- Concrete instance of the amended create theorem: a fully supplied
truthy request is persisted and returned. -/
theorem c4_validation_amended_witness :
    createHandler "u"
      { title := some "Conta", amount := some 12, ttype := some "EXPENSE",
        category := some "Outros", date := some "2025-01-02" } "id1" 5 [] =
      (Resp.ok { id := "id1", userId := "u", title := "Conta", amount := 12,
                 ttype := "EXPENSE", category := "Outros",
                 date := secsFromCivil 2025 1 2 0 0 0, createdAt := 5 },
       [{ id := "id1", userId := "u", title := "Conta", amount := 12,
          ttype := "EXPENSE", category := "Outros",
          date := secsFromCivil 2025 1 2 0 0 0, createdAt := 5 }]) := by
  exact (c4_validation_amended "u" _ "id1" 5 []).2.2 "Conta" 12 "EXPENSE" "Outros"
    "2025-01-02" (secsFromCivil 2025 1 2 0 0 0) rfl (by simp) (by norm_num) (by simp)
    (by simp) (by simp) (by decide)

/-! ### Claim C8 -/

/-- C8 counterexample: a supplied but empty date string is not
re-normalized — `new Date("")` would be an Invalid Date, and the code's
truthiness guard skips the date instead, returning the record with its
previous date value. -/
theorem c8_empty_date_not_renormalized :
    updateHandler "alice" "t1"
      { title := none, amount := none, ttype := none, category := none, date := some "" }
      [{ id := "t1", userId := "alice", title := "Old", amount := 5, ttype := "EXPENSE",
         category := "Outros", date := 100, createdAt := 7 }]
      = (Resp.ok { id := "t1", userId := "alice", title := "Old", amount := 5,
                   ttype := "EXPENSE", category := "Outros", date := 100, createdAt := 7 },
         [{ id := "t1", userId := "alice", title := "Old", amount := 5, ttype := "EXPENSE",
            category := "Outros", date := 100, createdAt := 7 }]) ∧
    jsNewDate "" = none := by
  refine ⟨?_, by decide⟩
  simp [updateHandler, applyUpd, List.find?, updDateField]

/-- C8 (amended): for an existing record owned by the caller (ids
unique), Update changes exactly the supplied fields — id, ownerId and
createdAt are never touched, every unsupplied field keeps its value —
the date is re-normalized when supplied with a non-empty value, a
supplied empty date string is ignored and keeps the previous date, and
the updated record is returned. -/
theorem c8_update_frame (uid : String) (r : Transaction) (body : UpdateBody)
    (store : List Transaction)
    (hmem : r ∈ store) (hown : r.userId = uid)
    (huniq : ∀ t ∈ store, t.id = r.id → t = r)
    (hdate : ∀ s, body.date = some s → ¬ s = "" → (jsNewDate s).isSome = true) :
    ∃ r' : Transaction,
      updateHandler uid r.id body store =
        (Resp.ok r', store.map fun u => if u.id == r.id then r' else u) ∧
      r'.id = r.id ∧ r'.userId = r.userId ∧ r'.createdAt = r.createdAt ∧
      (body.title = none → r'.title = r.title) ∧
      (∀ v, body.title = some v → r'.title = v) ∧
      (body.amount = none → r'.amount = r.amount) ∧
      (∀ v, body.amount = some v → r'.amount = v) ∧
      (body.ttype = none → r'.ttype = r.ttype) ∧
      (∀ v, body.ttype = some v → r'.ttype = v) ∧
      (body.category = none → r'.category = r.category) ∧
      (∀ v, body.category = some v → r'.category = v) ∧
      ((body.date = none ∨ body.date = some "") → r'.date = r.date) ∧
      (∀ s d, body.date = some s → ¬ s = "" → jsNewDate s = some d → r'.date = d) := by
  have hfind : store.find? (fun t => t.id == r.id && t.userId == uid) = some r := by
    apply find?_eq_some_of_unique hmem
    · simp [hown]
    · intro t ht hpt
      simp only [Bool.and_eq_true, beq_iff_eq] at hpt
      exact huniq t ht hpt.1
  have hmap : ∀ nd : Option Int,
      (store.map fun u => if u.id == r.id then applyUpd body u nd else u)
        = store.map fun u => if u.id == r.id then applyUpd body r nd else u := by
    intro nd
    apply List.map_congr_left
    intro u hu
    by_cases hid : (u.id == r.id) = true
    · rw [if_pos hid, if_pos hid, huniq u hu (by simpa using hid)]
    · rw [if_neg hid, if_neg hid]
  rcases hbd : body.date with _ | s
  · have hdf : updDateField body = none := by simp [updDateField, hbd]
    simp only [updateHandler, hfind, hdf]
    refine ⟨applyUpd body r none, ?_, rfl, rfl, rfl, ?_, ?_, ?_, ?_, ?_, ?_, ?_, ?_, ?_, ?_⟩
    · rw [hmap none]
    · intro h; simp [applyUpd, h]
    · intro v h; simp [applyUpd, h]
    · intro h; simp [applyUpd, h]
    · intro v h; simp [applyUpd, h]
    · intro h; simp [applyUpd, h]
    · intro v h; simp [applyUpd, h]
    · intro h; simp [applyUpd, h]
    · intro v h; simp [applyUpd, h]
    · intro _; simp [applyUpd]
    · intro s d hs
      cases hs
  · by_cases hse : (s == "") = true
    · have hdf : updDateField body = none := by simp [updDateField, hbd, hse]
      simp only [updateHandler, hfind, hdf]
      refine ⟨applyUpd body r none, ?_, rfl, rfl, rfl, ?_, ?_, ?_, ?_, ?_, ?_, ?_, ?_, ?_, ?_⟩
      · rw [hmap none]
      · intro h; simp [applyUpd, h]
      · intro v h; simp [applyUpd, h]
      · intro h; simp [applyUpd, h]
      · intro v h; simp [applyUpd, h]
      · intro h; simp [applyUpd, h]
      · intro v h; simp [applyUpd, h]
      · intro h; simp [applyUpd, h]
      · intro v h; simp [applyUpd, h]
      · intro _; simp [applyUpd]
      · intro s' d hs' hne
        injection hs' with hs'
        subst hs'
        exact absurd (by simpa using hse) hne
    · have hs : ¬ s = "" := by simpa using hse
      have hsome := hdate s hbd hs
      rcases hjd : jsNewDate s with _ | d
      · rw [hjd] at hsome
        cases hsome
      · have hdf : updDateField body = some (some d) := by
          simp [updDateField, hbd, hse, hjd]
        simp only [updateHandler, hfind, hdf]
        refine ⟨applyUpd body r (some d), ?_, rfl, rfl, rfl, ?_, ?_, ?_, ?_, ?_, ?_, ?_, ?_, ?_, ?_⟩
        · rw [hmap (some d)]
        · intro h; simp [applyUpd, h]
        · intro v h; simp [applyUpd, h]
        · intro h; simp [applyUpd, h]
        · intro v h; simp [applyUpd, h]
        · intro h; simp [applyUpd, h]
        · intro v h; simp [applyUpd, h]
        · intro h; simp [applyUpd, h]
        · intro v h; simp [applyUpd, h]
        · intro hcontra
          rcases hcontra with h | h
          · cases h
          · injection h with h
            exact absurd h hs
        · intro s' d' hs' hne' hjd'
          injection hs' with hs'
          subst hs'
          rw [hjd] at hjd'
          injection hjd' with hjd'
          try simp [applyUpd, hjd']

/-- Row and body used by the update-frame witness. -/
def c8Row : Transaction :=
  { id := "t1", userId := "u", title := "Old", amount := 5, ttype := "EXPENSE",
    category := "Outros", date := 100, createdAt := 7 }

/-- Partial update supplying only a title and a fresh date. -/
def c8Body : UpdateBody :=
  { title := some "New", amount := none, ttype := none, category := none,
    date := some "2025-01-02" }

/-- Concrete instance of the update-frame theorem: only title and date
change, the other fields and the identity survive. -/
theorem c8_update_frame_witness :
    ∃ r' : Transaction,
      updateHandler "u" c8Row.id c8Body [c8Row] =
        (Resp.ok r', [c8Row].map fun u => if u.id == c8Row.id then r' else u) ∧
      r'.title = "New" ∧ r'.amount = c8Row.amount ∧
      r'.date = secsFromCivil 2025 1 2 0 0 0 ∧
      r'.id = c8Row.id ∧ r'.userId = c8Row.userId ∧ r'.createdAt = c8Row.createdAt := by
  obtain ⟨r', heq, hid, huid, hca, htn, hts, han, has, _, _, _, _, hkeep, hdt⟩ :=
    c8_update_frame "u" c8Row c8Body [c8Row] (by simp) rfl
      (by intro t ht _; simpa using ht)
      (by intro s hs _; injection hs with hs; subst hs; decide)
  exact ⟨r', heq, hts "New" rfl, han rfl,
    hdt "2025-01-02" (secsFromCivil 2025 1 2 0 0 0) rfl (by decide) (by decide),
    hid, huid, hca⟩

/-! ### Claim C1 -/

/-- C1: ownership isolation.  For a record of owner A and any other
principal B: B's list never contains the record whatever the filters;
B's update and delete against the record's id answer NotFound and leave
the store untouched; and on any store without a record of (that id, B),
update and delete answer exactly the same NotFound with no effect — so
"exists but not yours" and "does not exist" are indistinguishable. -/
theorem c1_owner_isolation (A B : String) (r : Transaction) (store : List Transaction)
    (year month : Option Int) (body : UpdateBody)
    (_hmem : r ∈ store) (hA : r.userId = A) (hBA : ¬ B = A)
    (huniq : ∀ t ∈ store, t.id = r.id → t = r) :
    (∀ out, (listHandler B year month store).1 = Resp.okList out → r ∉ out) ∧
    updateHandler B r.id body store = (Resp.notFound, store) ∧
    deleteHandler B r.id store = (Resp.notFound, store) ∧
    (∀ store2 : List Transaction,
      (∀ t ∈ store2, ¬ (t.id = r.id ∧ t.userId = B)) →
      updateHandler B r.id body store2 = (Resp.notFound, store2) ∧
      deleteHandler B r.id store2 = (Resp.notFound, store2)) := by
  have hpred : ∀ t ∈ store, ¬ (t.id = r.id ∧ t.userId = B) := by
    intro t ht hc
    have hteq := huniq t ht hc.1
    rw [hteq] at hc
    exact hBA (by rw [← hc.2, hA])
  have hfn : ∀ store2 : List Transaction,
      (∀ t ∈ store2, ¬ (t.id = r.id ∧ t.userId = B)) →
      store2.find? (fun t => t.id == r.id && t.userId == B) = none := by
    intro store2 hs
    rw [List.find?_eq_none]
    intro t ht hp
    simp only [Bool.and_eq_true, beq_iff_eq] at hp
    exact hs t ht hp
  have hrB : ¬ (r.userId == B) = true := by
    simp only [beq_iff_eq, hA]
    intro h
    exact hBA h.symm
  refine ⟨?_, ?_, ?_, fun store2 hs => ⟨?_, ?_⟩⟩
  · intro out hl hmemout
    have hbase : ∀ l : List Transaction,
        r ∈ l.filter (fun t => t.userId == B) → False := by
      intro l hm
      exact hrB (List.mem_filter.mp hm).2
    rcases year with _ | y <;> rcases month with _ | m <;>
      simp only [listHandler] at hl <;>
      injection hl with hl <;>
      subst hl
    · exact hbase _ ((List.perm_insertionSort _ _).mem_iff.mp hmemout)
    · exact hbase _ ((List.perm_insertionSort _ _).mem_iff.mp hmemout)
    · exact hbase _ ((List.perm_insertionSort _ _).mem_iff.mp hmemout)
    · exact hbase _
        (List.mem_filter.mp ((List.perm_insertionSort _ _).mem_iff.mp hmemout)).1
  · simp only [updateHandler, hfn store hpred]
  · simp only [deleteHandler, hfn store hpred]
  · simp only [updateHandler, hfn store2 hs]
  · simp only [deleteHandler, hfn store2 hs]

/-- Record owned by alice, used by the isolation witness. -/
def c1Row : Transaction :=
  { id := "a1", userId := "alice", title := "Rent", amount := 3, ttype := "EXPENSE",
    category := "Moradia", date := 50, createdAt := 1 }

/-- Concrete instance of the isolation theorem: bob cannot list, update
or delete alice's record. -/
theorem c1_owner_isolation_witness :
    (∀ out, (listHandler "bob" none none [c1Row]).1 = Resp.okList out → c1Row ∉ out) ∧
    updateHandler "bob" c1Row.id
      { title := none, amount := none, ttype := none, category := none, date := none }
      [c1Row] = (Resp.notFound, [c1Row]) ∧
    deleteHandler "bob" c1Row.id [c1Row] = (Resp.notFound, [c1Row]) := by
  have h := c1_owner_isolation "alice" "bob" c1Row [c1Row] none none
    { title := none, amount := none, ttype := none, category := none, date := none }
    (by simp) rfl (by decide) (by intro t ht _; simpa using ht)
  exact ⟨h.1, h.2.1, h.2.2.1⟩

/-! ### Claim C2 -/

/-- C2 counterexample: a record dated September of year 25 CE together
with the supplied filters year=25, month=9.  Its date lies inside the
claimed month window [first day 00:00:00, last day 23:59:59] of that
year and month, yet the list for its owner comes back empty — the date
constructor offsets years 0–99 by 1900, so the code filters September
1925 instead. -/
theorem c2_two_digit_year_shifted :
    (listHandler "alice" (some 25) (some 9)
      [{ id := "t1", userId := "alice", title := "Papiro", amount := 1, ttype := "EXPENSE",
         category := "Outros", date := secsFromCivil 25 9 5 0 0 0, createdAt := 0 }]).1
      = Resp.okList [] ∧
    secsFromCivil 25 9 1 0 0 0 ≤ secsFromCivil 25 9 5 0 0 0 ∧
    secsFromCivil 25 9 5 0 0 0 ≤ secsFromCivil 25 9 (daysInMonth 25 9) 23 59 59 := by
  exact ⟨by decide, by decide, by decide⟩

/-- C2 (amended): for a supplied year ≥ 100 and month 1–12, List
returns exactly the owner's records whose date lies in the inclusive
window [first day of the month 00:00:00, last day 23:59:59], ordered by
date descending, leaving the store untouched; with year or month not
supplied it returns all the owner's records, ordered by date
descending.  (Years 0–99 are offset by 1900 and out-of-range months
normalize into adjacent years, per the date constructor.) -/
theorem c2_month_filter (uid : String) (y : Int) (m : Nat) (store : List Transaction)
    (h100 : 100 ≤ y) (h1 : 1 ≤ m) (h12 : m ≤ 12) :
    (∃ out, listHandler uid (some y) (some (m : Int)) store = (Resp.okList out, store) ∧
      out.Perm (store.filter fun t => t.userId == uid
        && decide (secsFromCivil y m 1 0 0 0 ≤ t.date)
        && decide (t.date ≤ secsFromCivil y m (daysInMonth y m) 23 59 59)) ∧
      List.Pairwise dateDesc out ∧
      (∀ t, t ∈ out ↔ t ∈ store ∧ t.userId = uid ∧
        secsFromCivil y m 1 0 0 0 ≤ t.date ∧
        t.date ≤ secsFromCivil y m (daysInMonth y m) 23 59 59)) ∧
    (∀ year month : Option Int, year = none ∨ month = none →
      ∃ out, listHandler uid year month store = (Resp.okList out, store) ∧
        out.Perm (store.filter fun t => t.userId == uid) ∧
        List.Pairwise dateDesc out ∧
        (∀ t, t ∈ out ↔ t ∈ store ∧ t.userId = uid)) := by
  constructor
  · have hstart := jsMakeDate_month_start y m h100 h1 h12
    have hend := jsMakeDate_month_end y m h100 h1 h12
    have hfilter : (store.filter fun t => t.userId == uid).filter
        (fun t => decide (jsMakeDate y ((m : Int) - 1) 1 0 0 0 ≤ t.date)
          && decide (t.date ≤ jsMakeDate y (m : Int) 0 23 59 59))
        = store.filter fun t => t.userId == uid
            && decide (secsFromCivil y m 1 0 0 0 ≤ t.date)
            && decide (t.date ≤ secsFromCivil y m (daysInMonth y m) 23 59 59) := by
      rw [List.filter_filter]
      apply List.filter_congr
      intro t _
      rw [hstart, hend]
      cases t.userId == uid <;>
        cases decide (secsFromCivil y m 1 0 0 0 ≤ t.date) <;>
        cases decide (t.date ≤ secsFromCivil y m (daysInMonth y m) 23 59 59) <;> rfl
    have hp := List.perm_insertionSort dateDesc
      ((store.filter fun t => t.userId == uid).filter
        (fun t => decide (jsMakeDate y ((m : Int) - 1) 1 0 0 0 ≤ t.date)
          && decide (t.date ≤ jsMakeDate y (m : Int) 0 23 59 59)))
    nth_rewrite 2 [hfilter] at hp
    refine ⟨_, rfl, hp, List.sorted_insertionSort dateDesc _, ?_⟩
    intro t
    exact hp.mem_iff.trans (by
      rw [List.mem_filter]
      simp only [Bool.and_eq_true, beq_iff_eq, decide_eq_true_eq, and_assoc])
  · intro year month hnone
    have hbase : ∀ out, out = List.insertionSort dateDesc
          (store.filter fun t => t.userId == uid) →
        out.Perm (store.filter fun t => t.userId == uid) ∧
        List.Pairwise dateDesc out ∧
        (∀ t, t ∈ out ↔ t ∈ store ∧ t.userId = uid) := by
      intro out hout
      subst hout
      have hp := List.perm_insertionSort dateDesc (store.filter fun t => t.userId == uid)
      refine ⟨hp, List.sorted_insertionSort dateDesc _, ?_⟩
      intro t
      exact hp.mem_iff.trans (by
        rw [List.mem_filter]
        simp only [beq_iff_eq])
    rcases year with _ | y'
    · exact ⟨_, rfl, hbase _ rfl⟩
    · rcases month with _ | m'
      · exact ⟨_, rfl, hbase _ rfl⟩
      · rcases hnone with h | h <;> cases h

/-- Store for the month-filter witness: the four dates of the
specification's example. -/
def c2Store : List Transaction :=
  [ { id := "b1", userId := "u", title := "A", amount := 1, ttype := "EXPENSE",
      category := "Outros", date := secsFromCivil 2025 8 31 0 0 0, createdAt := 0 },
    { id := "b2", userId := "u", title := "B", amount := 1, ttype := "EXPENSE",
      category := "Outros", date := secsFromCivil 2025 9 5 0 0 0, createdAt := 0 },
    { id := "b3", userId := "u", title := "C", amount := 1, ttype := "EXPENSE",
      category := "Outros", date := secsFromCivil 2025 9 30 0 0 0, createdAt := 0 },
    { id := "b4", userId := "u", title := "D", amount := 1, ttype := "EXPENSE",
      category := "Outros", date := secsFromCivil 2025 10 1 0 0 0, createdAt := 0 } ]

/-- Concrete instance of the month-filter theorem at the
specification's example (September 2025 over the four dated records). -/
theorem c2_month_filter_witness :
    ∃ out, listHandler "u" (some 2025) (some ((9 : Nat) : Int)) c2Store
        = (Resp.okList out, c2Store) ∧
      out.Perm (c2Store.filter fun t => t.userId == "u"
        && decide (secsFromCivil 2025 9 1 0 0 0 ≤ t.date)
        && decide (t.date ≤ secsFromCivil 2025 9 (daysInMonth 2025 9) 23 59 59)) ∧
      List.Pairwise dateDesc out ∧
      (∀ t, t ∈ out ↔ t ∈ c2Store ∧ t.userId = "u" ∧
        secsFromCivil 2025 9 1 0 0 0 ≤ t.date ∧
        t.date ≤ secsFromCivil 2025 9 (daysInMonth 2025 9) 23 59 59) :=
  (c2_month_filter "u" 2025 9 c2Store (by omega) (by omega) (by omega)).1

/-- Concrete instance of the import-example theorem: the handler
reports two created records and the count matches the number of
matching lines. -/
theorem c3_import_example_witness :
    (importHandler "u" (some importExample) (fun i => toString i) 0 []).1
      = Resp.okImport 2 ∧
    2 = ((jsSplit '\n' importExample).filter nonBlank).countP
        (fun l => (parseLine "u" l).isSome) := by
  have h := c3_import_example "u" (fun i => toString i) 0 []
  exact ⟨h.2.1, h.2.2.2 importExample [] 2 h.2.1⟩
